import Mathlib

/-!
Shallow embedding of `src/main.py` of the arxiv-recent repository.

The script has three parts: `parse_arxiv_feed` (an Atom XML tree walk),
`get_recent_csse_papers` (a network fetch, modelled here only as the document
it returns), and the `__main__` driver loop, which per subject computes the
latest `updated` date, filters the parsed records to that date and writes
JSONL files.  Python dictionaries become structures, `None` becomes `none`,
exceptions become `Except.error`, and the data directory becomes an
association list from file name to file content.
-/

deriving instance DecidableEq for Except

/-- Attributes of one `atom:link` element as `link.attrib.get` returns them:
`none` models a missing attribute. -/
structure AtomLink where
  typeAttr : Option String
  href : Option String
deriving DecidableEq, Repr

/-- One `atom:author` element: `name = none` models an author with no
`atom:name` child, and the inner option is the name element's text
(`none` when the element is empty). -/
structure AtomAuthor where
  name : Option (Option String)
deriving DecidableEq, Repr

/-- One `atom:entry` element as the parser reads it.  For each scalar field,
the outer `none` means `entry.find` returned `None` (element absent) and
`some t` means an element whose `.text` is `t` (`t = none` when the element
has no text). -/
structure AtomEntry where
  id : Option (Option String)
  title : Option (Option String)
  summary : Option (Option String)
  published : Option (Option String)
  updated : Option (Option String)
  authors : List AtomAuthor
  links : List AtomLink
deriving DecidableEq, Repr

/-- Outcome of `ET.fromstring` on the feed text (main.py line 17): a
non-well-formed document raises a structural parse error, otherwise the root
holds the entry list in document order. -/
inductive XmlDoc where
  | malformed
  | wellFormed (entries : List AtomEntry)
deriving DecidableEq, Repr

/-- Python exceptions the script can raise on the modelled paths:
`AttributeError` from calling a string method on `None`, `ValueError` from
`max` of an empty list, and `xml.etree.ElementTree.ParseError`. -/
inductive PyError where
  | attributeError
  | valueError
  | xmlParseError
deriving DecidableEq, Repr

/-- One parsed paper dictionary, keys in insertion order
(main.py lines 23-44). -/
structure Paper where
  id : Option String
  title : Option String
  summary : Option String
  published : Option String
  updated : Option String
  authors : List (Option String)
  pdf_url : Option String
deriving DecidableEq, Repr

/-- Value of `elem.text if elem is not None else None`
(main.py lines 25, 28, 29). -/
def textOf : Option (Option String) → Option String
  | none => none
  | some t => t

/-- Python `str.strip()`: drop leading and trailing whitespace. -/
def pyStrip (s : String) : String :=
  ⟨((s.data.dropWhile Char.isWhitespace).reverse.dropWhile Char.isWhitespace).reverse⟩

/-- Value of `elem.text.strip() if elem is not None else None`: raises
`AttributeError` when the element is present with no text, because
`None.strip()` is then called (main.py lines 26-27). -/
def stripText : Option (Option String) → Except PyError (Option String)
  | none => Except.ok none
  | some none => Except.error PyError.attributeError
  | some (some s) => Except.ok (some (pyStrip s))

/-- Author loop of main.py lines 32-37: author elements without a name child
are skipped, and the text of each name element (possibly `None`) is
appended. -/
def authorNames (authors : List AtomAuthor) : List (Option String) :=
  authors.filterMap fun a => a.name

/-- Test of main.py line 42: `link.attrib.get("type") == "application/pdf"`. -/
def isPdfLink (l : AtomLink) : Bool :=
  l.typeAttr == some "application/pdf"

/-- PDF-link loop of main.py lines 40-44: every link whose type attribute is
`application/pdf` overwrites `pdf_url` with its href, starting from `None`. -/
def pdfUrlOf (links : List AtomLink) : Option String :=
  links.foldl (fun acc l => if isPdfLink l then l.href else acc) none

/-- Body of the entry loop, main.py lines 23-46; `title` is computed before
`summary`, so the first `AttributeError` wins. -/
def parse_entry (e : AtomEntry) : Except PyError Paper := do
  let title ← stripText e.title
  let summary ← stripText e.summary
  Except.ok { id := textOf e.id, title := title, summary := summary,
              published := textOf e.published, updated := textOf e.updated,
              authors := authorNames e.authors, pdf_url := pdfUrlOf e.links }

/-- Entry loop of `parse_arxiv_feed` (main.py lines 22-46): entries are
processed in document order and the first entry that raises aborts the whole
parse. -/
def parseEntries : List AtomEntry → Except PyError (List Paper)
  | [] => Except.ok []
  | e :: rest => do
      let p ← parse_entry e
      let ps ← parseEntries rest
      Except.ok (p :: ps)

/-- Parse an arXiv Atom feed into a list of paper records
(main.py lines 7-48); the `ET.fromstring` exception on malformed input
propagates uncaught. -/
def parse_arxiv_feed : XmlDoc → Except PyError (List Paper)
  | XmlDoc.malformed => Except.error PyError.xmlParseError
  | XmlDoc.wellFormed entries => parseEntries entries

/-- Python truthiness of `p.get("updated")`: both `None` and the empty
string are falsy. -/
def truthyStr : Option String → Bool
  | none => false
  | some s => !(s == "")

/-- List comprehension of main.py lines 87-91: `p["updated"][:10]` over the
records whose `updated` is truthy, in list order. -/
def all_dates (parsed : List Paper) : List String :=
  parsed.filterMap fun p =>
    if truthyStr p.updated then some ((p.updated.getD "").take 10) else none

/-- Python `<` on two character lists: lexicographic by code point, a strict
prefix is smaller. -/
def lexLt : List Char → List Char → Bool
  | [], [] => false
  | [], _ :: _ => true
  | _ :: _, [] => false
  | a :: as, b :: bs => if a < b then true else if b < a then false else lexLt as bs

/-- Python `<` on two strings. -/
def strLt (a b : String) : Bool :=
  lexLt a.data b.data

/-- Python `max` over a list of strings (main.py line 94): `ValueError` on an
empty list, otherwise a left fold that replaces the accumulator only on a
strictly greater element, so the first maximum wins ties. -/
def pyMax : List String → Except PyError String
  | [] => Except.error PyError.valueError
  | x :: xs => Except.ok (xs.foldl (fun a b => if strLt a b then b else a) x)

/-- Python `p["updated"].startswith(latest)` (main.py line 100):
`AttributeError` when `updated` is `None`, otherwise a character-prefix
test. -/
def pyStartswith (u : Option String) (pre : String) : Except PyError Bool :=
  match u with
  | none => Except.error PyError.attributeError
  | some s => Except.ok (pre.data.isPrefixOf s.data)

/-- Filter comprehension of main.py lines 98-101, evaluated left to right. -/
def filterLatest (latest : String) : List Paper → Except PyError (List Paper)
  | [] => Except.ok []
  | p :: rest => do
      let b ← pyStartswith p.updated latest
      let ps ← filterLatest latest rest
      Except.ok (if b then p :: ps else ps)

/-- Data directory contents as an association list from file name to file
text; the first entry for a name is its current content. -/
abbrev FS := List (String × String)

/-- Existence check `jsonl_filename.exists()` (main.py line 105). -/
def fileExists (fs : FS) (name : String) : Bool :=
  (fs.lookup name).isSome

/-- Opening a file with mode `"w"` and writing replaces its previous content
or creates the file. -/
def writeFile (fs : FS) (name content : String) : FS :=
  (name, content) :: fs.filter fun p => p.1 != name

/-- Escape one character for a JSON string literal; `ensure_ascii=False`
keeps non-ASCII characters literal. -/
def escChar (c : Char) : String :=
  if c = '\\' then "\\\\"
  else if c = '"' then "\\\""
  else if c = '\n' then "\\n"
  else if c = '\r' then "\\r"
  else if c = '\t' then "\\t"
  else String.singleton c

/-- JSON string literal. -/
def jsonString (s : String) : String :=
  "\"" ++ String.join (s.data.map escChar) ++ "\""

/-- JSON value of an optional string: `null` or a string literal. -/
def jsonOpt : Option String → String
  | none => "null"
  | some s => jsonString s

/-- JSON array for the author list, with the default `", "` separator. -/
def jsonAuthors (authors : List (Option String)) : String :=
  "[" ++ String.intercalate ", " (authors.map jsonOpt) ++ "]"

/-- Result of `json.dumps(item, ensure_ascii=False)` for one paper
dictionary, keys in insertion order, default separators. -/
def dumps (p : Paper) : String :=
  "\x7b\"id\": " ++ jsonOpt p.id ++ ", \"title\": " ++ jsonOpt p.title ++
  ", \"summary\": " ++ jsonOpt p.summary ++ ", \"published\": " ++ jsonOpt p.published ++
  ", \"updated\": " ++ jsonOpt p.updated ++ ", \"authors\": " ++ jsonAuthors p.authors ++
  ", \"pdf_url\": " ++ jsonOpt p.pdf_url ++ "\x7d"

/-- Content written for a filtered list (main.py lines 108-110 and 115-117):
one `json.dumps` line plus a newline per record. -/
def jsonlContent (papers : List Paper) : String :=
  String.join (papers.map fun p => dumps p ++ "\n")

/-- Per-subject dated output path `DATA_DIR / f"{subject}.{latest}.jsonl"`
(main.py line 104), with `/` as the path separator. -/
def datedName (dataDir subject date : String) : String :=
  dataDir ++ "/" ++ subject ++ "." ++ date ++ ".jsonl"

/-- Shared mirror path `DATA_DIR / "today.jsonl"` (main.py line 114). -/
def todayName (dataDir : String) : String :=
  dataDir ++ "/today.jsonl"

/-- Console line of main.py line 95. -/
def latestMsg (subject date : String) : String :=
  subject ++ " → latest date: " ++ date

/-- Console line of main.py lines 112 and 119. -/
def savedMsg (n : Nat) (path : String) : String :=
  "Saved " ++ toString n ++ " papers to " ++ path

/-- Console line of main.py line 83 (`print` joins its arguments with a
space). -/
def noPapersMsg (subject : String) : String :=
  subject ++ " → No papers found"

/-- Driver body for one subject after parsing (main.py lines 82-119):
returns the updated directory contents and the console lines, or the
uncaught exception. -/
def driver_subject (dataDir subject : String) (parsed : List Paper) (fs : FS) :
    Except PyError (FS × List String) :=
  if parsed.isEmpty then Except.ok (fs, [noPapersMsg subject])
  else do
    let latest ← pyMax (all_dates parsed)
    let filtered ← filterLatest latest parsed
    if fileExists fs (datedName dataDir subject latest) then
      Except.ok (fs, [latestMsg subject latest])
    else
      let fs1 := writeFile fs (datedName dataDir subject latest) (jsonlContent filtered)
      let fs2 := writeFile fs1 (todayName dataDir) (jsonlContent filtered)
      Except.ok (fs2, [latestMsg subject latest,
                       savedMsg filtered.length (datedName dataDir subject latest),
                       savedMsg filtered.length (todayName dataDir)])

/-- Main loop over the configured subjects (main.py lines 78-119).  Each
subject is paired with the XML document its fetch returned; configuration
(`SUBJECTS`, `DATA_DIR`) is passed in explicitly.  An uncaught exception
aborts the whole run. -/
def main_loop (dataDir : String) : FS → List (String × XmlDoc) → Except PyError (FS × List String)
  | fs, [] => Except.ok (fs, [])
  | fs, (subject, doc) :: rest => do
      let r ← do
        let parsed ← parse_arxiv_feed doc
        driver_subject dataDir subject parsed fs
      let r2 ← main_loop dataDir r.1 rest
      Except.ok (r2.1, r.2 ++ r2.2)

/-- Trimmed text of an optional element, defined exactly where `stripText`
does not raise. -/
def stripOk : Option (Option String) → Option String
  | none => none
  | some none => none
  | some (some s) => some (pyStrip s)

/-- Specification-side description of the PDF link choice: the href of the
last link in document order whose type attribute is `application/pdf`, and
`none` when no link has that type. -/
def lastPdfHref (links : List AtomLink) : Option String :=
  match links.reverse.find? isPdfLink with
  | none => none
  | some l => l.href

/-- Specification-side description of one record against its feed entry:
absent optional fields are null, title and summary are whitespace-trimmed,
identifier and timestamps are copied verbatim. -/
def entryMatches (e : AtomEntry) (r : Paper) : Prop :=
  r.id = textOf e.id ∧
  (e.title = none → r.title = none) ∧
  (∀ s, e.title = some (some s) → r.title = some (pyStrip s)) ∧
  (e.summary = none → r.summary = none) ∧
  (∀ s, e.summary = some (some s) → r.summary = some (pyStrip s)) ∧
  r.published = textOf e.published ∧
  r.updated = textOf e.updated

/-- Record with only the `updated` field set, for concrete checks. -/
def mkPaper (u : Option String) : Paper :=
  { id := none, title := none, summary := none, published := none,
    updated := u, authors := [], pdf_url := none }

/-- Record of the spec's first example timestamp. -/
def paperA : Paper := mkPaper (some "2024-01-01T10:00:00Z")

/-- Record of the spec's second example timestamp. -/
def paperB : Paper := mkPaper (some "2024-01-02T09:00:00Z")

/-- Record of the spec's third example timestamp. -/
def paperC : Paper := mkPaper (some "2024-01-02T11:00:00Z")

/-- Feed entry with every element absent. -/
def emptyEntry : AtomEntry :=
  { id := none, title := none, summary := none, published := none,
    updated := none, authors := [], links := [] }

/-- Feed entry whose title element is present but has no text. -/
def emptyTitleEntry : AtomEntry := { emptyEntry with title := some none }

/-- Feed entry with two `application/pdf` links, hrefs `A` then `B`. -/
def twoPdfEntry : AtomEntry :=
  { emptyEntry with
    links := [{ typeAttr := some "application/pdf", href := some "A" },
              { typeAttr := some "application/pdf", href := some "B" }] }

/-- Record produced for `twoPdfEntry`. -/
def twoPdfPaper : Paper := { mkPaper none with pdf_url := some "B" }

/-- Feed entry with one author element that has no name child. -/
def namelessAuthorEntry : AtomEntry := { emptyEntry with authors := [{ name := none }] }

/-- Feed entry with all scalar elements present and two named authors. -/
def richEntry : AtomEntry :=
  { id := some (some "http://arxiv.org/abs/2401.0001v1"),
    title := some (some " A Title "),
    summary := some (some "A summary."),
    published := some (some "2024-01-01T00:00:00Z"),
    updated := some (some "2024-01-02T09:00:00Z"),
    authors := [{ name := some (some "Alice") }, { name := some (some "Bob") }],
    links := [] }

/-- Record produced for `richEntry`. -/
def richPaper : Paper :=
  { id := some "http://arxiv.org/abs/2401.0001v1",
    title := some "A Title",
    summary := some "A summary.",
    published := some "2024-01-01T00:00:00Z",
    updated := some "2024-01-02T09:00:00Z",
    authors := [some "Alice", some "Bob"],
    pdf_url := none }

/-- Feed entry carrying only an `updated` timestamp. -/
def updatedOnlyEntry : AtomEntry :=
  { emptyEntry with updated := some (some "2024-01-02T09:00:00Z") }

/-- Feed entry carrying only the spec's first example timestamp. -/
def entryA : AtomEntry :=
  { emptyEntry with updated := some (some "2024-01-01T10:00:00Z") }

/-- Feed entry carrying only the spec's third example timestamp. -/
def entryC : AtomEntry :=
  { emptyEntry with updated := some (some "2024-01-02T11:00:00Z") }

/-- Directory that already holds the dated output file for subject `cs.SE`
and date `2024-01-02`. -/
def exFs : FS := [("data/cs.SE.2024-01-02.jsonl", "old")]

theorem bind_ok {ε α β : Type} (x : α) (f : α → Except ε β) :
    (Except.ok x : Except ε α) >>= f = f x := rfl

theorem bind_err {ε α β : Type} (e : ε) (f : α → Except ε β) :
    (Except.error e : Except ε α) >>= f = Except.error e := rfl

theorem lexLt_nil (l : List Char) : lexLt l [] = false := by
  cases l <;> rfl

theorem lexLt_irrefl (l : List Char) : lexLt l l = false := by
  induction l with
  | nil => rfl
  | cons a as ih => simp [lexLt, lt_irrefl, ih]

theorem lexLt_trans : ∀ (a b c : List Char),
    lexLt a b = true → lexLt b c = true → lexLt a c = true
  | [], [], _, h1, _ => by simp [lexLt] at h1
  | [], _ :: _, [], _, h2 => by simp [lexLt] at h2
  | [], _ :: _, _ :: _, _, _ => rfl
  | _ :: _, [], _, h1, _ => by simp [lexLt] at h1
  | _ :: _, _ :: _, [], _, h2 => by simp [lexLt] at h2
  | x :: as, y :: bs, z :: cs, h1, h2 => by
      simp only [lexLt] at h1 h2 ⊢
      rcases lt_trichotomy x y with hxy | hxy | hxy
      · rcases lt_trichotomy y z with hyz | hyz | hyz
        · simp [lt_trans hxy hyz]
        · subst hyz; simp [hxy]
        · rw [if_neg (asymm hyz), if_pos hyz] at h2; cases h2
      · subst hxy
        rcases lt_trichotomy x z with hxz | hxz | hxz
        · simp [hxz]
        · subst hxz
          rw [if_neg (lt_irrefl x), if_neg (lt_irrefl x)] at h1 h2 ⊢
          exact lexLt_trans as bs cs h1 h2
        · rw [if_neg (asymm hxz), if_pos hxz] at h2; cases h2
      · rw [if_neg (asymm hxy), if_pos hxy] at h1; cases h1

theorem lexLt_total : ∀ (a b : List Char),
    lexLt a b = false → lexLt b a = false → a = b
  | [], [], _, _ => rfl
  | [], _ :: _, h1, _ => by simp [lexLt] at h1
  | _ :: _, [], _, h2 => by simp [lexLt] at h2
  | x :: as, y :: bs, h1, h2 => by
      simp only [lexLt] at h1 h2
      rcases lt_trichotomy x y with hxy | hxy | hxy
      · rw [if_pos hxy] at h1; cases h1
      · subst hxy
        rw [if_neg (lt_irrefl x), if_neg (lt_irrefl x)] at h1 h2
        rw [lexLt_total as bs h1 h2]
      · rw [if_pos hxy] at h2; cases h2

theorem lexLt_of_lt_of_nlt (m a b : List Char) (hmb : lexLt m b = true)
    (hab : lexLt a b = false) : lexLt m a = true := by
  cases hma : lexLt m a
  · cases ham : lexLt a m
    · have heq := lexLt_total m a hma ham
      subst heq
      rw [hmb] at hab; cases hab
    · have htr := lexLt_trans a m b ham hmb
      rw [htr] at hab; cases hab
  · rfl

theorem strLt_irrefl (s : String) : strLt s s = false := lexLt_irrefl s.data

theorem strLt_empty (s : String) : strLt s "" = false := lexLt_nil s.data

theorem pyMax_fold_mem : ∀ (xs : List String) (a : String),
    xs.foldl (fun u v => if strLt u v then v else u) a = a ∨
    xs.foldl (fun u v => if strLt u v then v else u) a ∈ xs := by
  intro xs
  induction xs with
  | nil => intro a; exact Or.inl rfl
  | cons b bs ih =>
    intro a
    simp only [List.foldl_cons]
    rcases ih (if strLt a b then b else a) with h | h
    · rw [h]
      by_cases hab : strLt a b = true
      · rw [if_pos hab]; exact Or.inr (List.mem_cons_self b bs)
      · rw [if_neg hab]; exact Or.inl rfl
    · exact Or.inr (List.mem_cons_of_mem b h)

theorem pyMax_fold_notLt : ∀ (xs : List String) (a : String),
    strLt (xs.foldl (fun u v => if strLt u v then v else u) a) a = false ∧
    ∀ x ∈ xs, strLt (xs.foldl (fun u v => if strLt u v then v else u) a) x = false := by
  intro xs
  induction xs with
  | nil =>
    intro a
    exact ⟨strLt_irrefl a, by simp⟩
  | cons b bs ih =>
    intro a
    simp only [List.foldl_cons]
    obtain ⟨h1, h2⟩ := ih (if strLt a b then b else a)
    by_cases hab : strLt a b = true
    · rw [if_pos hab] at h1 h2 ⊢
      refine ⟨?_, fun x hx => ?_⟩
      · cases hma : strLt (bs.foldl (fun u v => if strLt u v then v else u) b) a
        · rfl
        · exfalso
          have htr : strLt (bs.foldl (fun u v => if strLt u v then v else u) b) b = true :=
            lexLt_trans _ _ _ hma hab
          rw [h1] at htr; cases htr
      · rcases List.mem_cons.mp hx with rfl | hx
        · exact h1
        · exact h2 x hx
    · rw [if_neg hab] at h1 h2 ⊢
      have hab' : strLt a b = false := by
        revert hab; cases strLt a b <;> simp
      refine ⟨h1, fun x hx => ?_⟩
      rcases List.mem_cons.mp hx with rfl | hx
      · cases hmx : strLt (bs.foldl (fun u v => if strLt u v then v else u) a) x
        · rfl
        · exfalso
          have htr : strLt (bs.foldl (fun u v => if strLt u v then v else u) a) a = true :=
            lexLt_of_lt_of_nlt _ _ _ hmx hab'
          rw [h1] at htr; cases htr
      · exact h2 x hx

theorem pyMax_ok (xs : List String) (hne : xs ≠ []) :
    ∃ D, pyMax xs = Except.ok D ∧ D ∈ xs ∧ ∀ x ∈ xs, strLt D x = false := by
  cases xs with
  | nil => exact absurd rfl hne
  | cons x xs =>
    refine ⟨_, rfl, ?_, ?_⟩
    · rcases pyMax_fold_mem xs x with h | h
      · rw [h]; exact List.mem_cons_self x xs
      · exact List.mem_cons_of_mem x h
    · intro y hy
      obtain ⟨h1, h2⟩ := pyMax_fold_notLt xs x
      rcases List.mem_cons.mp hy with rfl | hy
      · exact h1
      · exact h2 y hy


theorem mem_all_dates {parsed : List Paper} {x : String} :
    x ∈ all_dates parsed ↔
      ∃ p ∈ parsed, truthyStr p.updated = true ∧ (p.updated.getD "").take 10 = x := by
  constructor
  · intro hx
    obtain ⟨p, hp, hpx⟩ := List.mem_filterMap.mp hx
    by_cases ht : truthyStr p.updated = true
    · rw [if_pos ht] at hpx
      exact ⟨p, hp, ht, Option.some.inj hpx⟩
    · rw [if_neg ht] at hpx; cases hpx
  · rintro ⟨p, hp, ht, hx⟩
    exact List.mem_filterMap.mpr ⟨p, hp, by rw [if_pos ht, hx]⟩

theorem all_dates_ne_nil {parsed : List Paper}
    (h : ∃ p ∈ parsed, truthyStr p.updated = true) : all_dates parsed ≠ [] := by
  obtain ⟨p, hp, ht⟩ := h
  intro hnil
  have hmem : (p.updated.getD "").take 10 ∈ all_dates parsed :=
    mem_all_dates.mpr ⟨p, hp, ht, rfl⟩
  rw [hnil] at hmem
  cases hmem

theorem all_dates_eq_nil : ∀ {parsed : List Paper},
    (∀ p ∈ parsed, truthyStr p.updated = false) → all_dates parsed = [] := by
  intro parsed
  induction parsed with
  | nil => intro _; rfl
  | cons p ps ih =>
    intro h
    have hp : truthyStr p.updated = false := h p (List.mem_cons_self p ps)
    simp only [all_dates, List.filterMap_cons, hp, Bool.false_eq_true, if_false]
    exact ih fun q hq => h q (List.mem_cons_of_mem p hq)

theorem filterLatest_ok {D : String} : ∀ {l : List Paper},
    (∀ p ∈ l, p.updated ≠ none) →
    filterLatest D l =
      Except.ok (l.filter fun p => D.data.isPrefixOf (p.updated.getD "").data) := by
  intro l
  induction l with
  | nil => intro _; rfl
  | cons p ps ih =>
    intro h
    have hp := h p (List.mem_cons_self p ps)
    cases hu : p.updated with
    | none => exact absurd hu hp
    | some u =>
      simp only [filterLatest, pyStartswith, hu, bind_ok,
        ih fun q hq => h q (List.mem_cons_of_mem p hq)]
      simp [List.filter_cons, hu]

theorem filterLatest_err {D : String} : ∀ {l : List Paper},
    (∃ p ∈ l, p.updated = none) →
    filterLatest D l = Except.error PyError.attributeError := by
  intro l
  induction l with
  | nil => rintro ⟨p, hp, -⟩; cases hp
  | cons p ps ih =>
    rintro ⟨q, hq, hqn⟩
    cases hu : p.updated with
    | none => simp only [filterLatest, pyStartswith, hu, bind_err]
    | some u =>
      rcases List.mem_cons.mp hq with rfl | hq
      · rw [hu] at hqn; cases hqn
      · simp only [filterLatest, pyStartswith, hu, bind_ok, ih ⟨q, hq, hqn⟩, bind_err]

theorem stripText_ok : ∀ {t : Option (Option String)}, t ≠ some none →
    stripText t = Except.ok (stripOk t)
  | none, _ => rfl
  | some none, h => absurd rfl h
  | some (some _), _ => rfl

theorem parse_entry_ok {e : AtomEntry} (ht : e.title ≠ some none)
    (hs : e.summary ≠ some none) :
    parse_entry e = Except.ok
      { id := textOf e.id, title := stripOk e.title, summary := stripOk e.summary,
        published := textOf e.published, updated := textOf e.updated,
        authors := authorNames e.authors, pdf_url := pdfUrlOf e.links } := by
  simp only [parse_entry, stripText_ok ht, stripText_ok hs, bind_ok]

theorem parse_entry_title_err {e : AtomEntry} (ht : e.title = some none) :
    parse_entry e = Except.error PyError.attributeError := by
  simp only [parse_entry, ht, stripText, bind_err]

theorem parse_entry_summary_err {e : AtomEntry} (ht : e.title ≠ some none)
    (hs : e.summary = some none) :
    parse_entry e = Except.error PyError.attributeError := by
  simp only [parse_entry, stripText_ok ht, bind_ok, hs]
  rfl

theorem entryMatches_mk (e : AtomEntry) :
    entryMatches e
      { id := textOf e.id, title := stripOk e.title, summary := stripOk e.summary,
        published := textOf e.published, updated := textOf e.updated,
        authors := authorNames e.authors, pdf_url := pdfUrlOf e.links } := by
  refine ⟨rfl, ?_, ?_, ?_, ?_, rfl, rfl⟩
  · intro h; rw [h]; rfl
  · intro s h; rw [h]; rfl
  · intro h; rw [h]; rfl
  · intro s h; rw [h]; rfl

theorem parseEntries_forall2 : ∀ (entries : List AtomEntry),
    (∀ e ∈ entries, e.title ≠ some none ∧ e.summary ≠ some none) →
    ∃ rs, parseEntries entries = Except.ok rs ∧ List.Forall₂ entryMatches entries rs
  | [], _ => ⟨[], rfl, List.Forall₂.nil⟩
  | e :: rest, h => by
      obtain ⟨ht, hs⟩ := h e (List.mem_cons_self e rest)
      obtain ⟨rs, hrs, hmatch⟩ :=
        parseEntries_forall2 rest fun q hq => h q (List.mem_cons_of_mem e hq)
      refine ⟨_ :: rs, ?_, List.Forall₂.cons (entryMatches_mk e) hmatch⟩
      simp only [parseEntries, parse_entry_ok ht hs, bind_ok, hrs]

theorem parseEntries_err : ∀ (entries : List AtomEntry),
    (∃ e ∈ entries, e.title = some none ∨ e.summary = some none) →
    parseEntries entries = Except.error PyError.attributeError
  | [], h => by rcases h with ⟨e, he, -⟩; cases he
  | e :: rest, h => by
      by_cases ht : e.title = some none
      · simp only [parseEntries, parse_entry_title_err ht, bind_err]
      · by_cases hs : e.summary = some none
        · simp only [parseEntries, parse_entry_summary_err ht hs, bind_err]
        · rcases h with ⟨q, hq, hbad⟩
          rcases List.mem_cons.mp hq with rfl | hq
          · rcases hbad with hbad | hbad
            · exact absurd hbad ht
            · exact absurd hbad hs
          · simp only [parseEntries, parse_entry_ok ht hs, bind_ok,
              parseEntries_err rest ⟨q, hq, hbad⟩, bind_err]

theorem pdfUrl_fold : ∀ (links : List AtomLink) (acc : Option String),
    links.foldl (fun acc l => if isPdfLink l then l.href else acc) acc =
      (match links.reverse.find? isPdfLink with
       | none => acc
       | some l => l.href) := by
  intro links
  induction links with
  | nil => intro acc; rfl
  | cons l ls ih =>
    intro acc
    simp only [List.foldl_cons, List.reverse_cons, List.find?_append, ih]
    cases h : ls.reverse.find? isPdfLink with
    | some l' => simp [h, Option.or]
    | none =>
      cases hl : isPdfLink l
      · simp [h, hl, List.find?, Option.or, if_neg]
      · simp [h, hl, List.find?, Option.or]

theorem pdfUrl_eq_lastPdfHref (links : List AtomLink) :
    pdfUrlOf links = lastPdfHref links := by
  simp only [pdfUrlOf, lastPdfHref, pdfUrl_fold]

theorem authorNames_eq_filter_map : ∀ (as : List AtomAuthor),
    authorNames as = (as.filter fun a => a.name.isSome).map fun a => a.name.getD none
  | [] => rfl
  | a :: rest => by
      cases hn : a.name with
      | none =>
        simp only [authorNames, List.filterMap_cons, hn, List.filter_cons, Option.isSome_none,
          Bool.false_eq_true, if_false]
        exact authorNames_eq_filter_map rest
      | some t =>
        simp only [authorNames, List.filterMap_cons, hn, List.filter_cons, Option.isSome_some,
          if_true, List.map_cons, Option.getD_some]
        exact congrArg (t :: ·) (authorNames_eq_filter_map rest)

theorem lookup_writeFile (fs : FS) (n c : String) :
    (writeFile fs n c).lookup n = some c := by
  simp [writeFile, List.lookup]

theorem list_isEmpty_false {α : Type} {l : List α} (h : l ≠ []) : l.isEmpty = false := by
  cases l
  · exact absurd rfl h
  · rfl

theorem driver_subject_skip {dataDir subject : String} {parsed : List Paper} {fs : FS}
    {D : String} {F : List Paper}
    (hne : parsed ≠ [])
    (hmax : pyMax (all_dates parsed) = Except.ok D)
    (hfil : filterLatest D parsed = Except.ok F)
    (hex : fileExists fs (datedName dataDir subject D) = true) :
    driver_subject dataDir subject parsed fs = Except.ok (fs, [latestMsg subject D]) := by
  simp only [driver_subject, list_isEmpty_false hne, Bool.false_eq_true, if_false,
    hmax, bind_ok, hfil, hex, if_true]

theorem driver_subject_write {dataDir subject : String} {parsed : List Paper} {fs : FS}
    {D : String} {F : List Paper}
    (hne : parsed ≠ [])
    (hmax : pyMax (all_dates parsed) = Except.ok D)
    (hfil : filterLatest D parsed = Except.ok F)
    (hex : fileExists fs (datedName dataDir subject D) = false) :
    driver_subject dataDir subject parsed fs =
      Except.ok (writeFile (writeFile fs (datedName dataDir subject D) (jsonlContent F))
                   (todayName dataDir) (jsonlContent F),
                 [latestMsg subject D, savedMsg F.length (datedName dataDir subject D),
                  savedMsg F.length (todayName dataDir)]) := by
  simp only [driver_subject, list_isEmpty_false hne, Bool.false_eq_true, if_false,
    hmax, bind_ok, hfil, hex, if_true]

theorem main_loop_cons (dataDir subject : String) (doc : XmlDoc) (fs : FS)
    (rest : List (String × XmlDoc)) {parsed : List Paper} {out : FS × List String}
    (hp : parse_arxiv_feed doc = Except.ok parsed)
    (hd : driver_subject dataDir subject parsed fs = Except.ok out) :
    main_loop dataDir fs ((subject, doc) :: rest) =
      (main_loop dataDir out.1 rest).map fun r2 => (r2.1, out.2 ++ r2.2) := by
  simp only [main_loop, hp, bind_ok, hd]
  cases hml : main_loop dataDir out.1 rest with
  | error e => rfl
  | ok r2 => rfl

theorem parse_entry_updated (e : AtomEntry) (r : Paper)
    (h : parse_entry e = Except.ok r) : r.updated = textOf e.updated := by
  by_cases ht : e.title = some none
  · rw [parse_entry_title_err ht] at h; cases h
  · by_cases hs : e.summary = some none
    · rw [parse_entry_summary_err ht hs] at h; cases h
    · rw [parse_entry_ok ht hs] at h
      injection h with h
      rw [← h]

/-- Invariant of ElementTree text extraction: `.text` of a parsed element is
never the empty string (an empty element, an empty CDATA section or an
empty entity all yield `None`), so when the entries satisfy
`e.updated ≠ some (some "")`, every record of a successful parse has an
`updated` that is null or a non-empty string. -/
theorem parseEntries_updated_inv : ∀ {entries : List AtomEntry} {rs : List Paper},
    (∀ e ∈ entries, e.updated ≠ some (some "")) →
    parseEntries entries = Except.ok rs →
    ∀ p ∈ rs, p.updated ≠ some "" := by
  intro entries
  induction entries with
  | nil =>
    intro rs _ h p hp
    simp only [parseEntries] at h
    injection h with h
    subst h
    cases hp
  | cons e rest ih =>
    intro rs hET h p hp
    cases he : parse_entry e with
    | error err =>
      simp only [parseEntries, he, bind_err] at h
      cases h
    | ok q =>
      cases hr : parseEntries rest with
      | error err =>
        simp only [parseEntries, he, bind_ok, hr, bind_err] at h
        cases h
      | ok qs =>
        simp only [parseEntries, he, bind_ok, hr, bind_ok] at h
        injection h with h
        subst h
        rcases List.mem_cons.mp hp with rfl | hp2
        · rw [parse_entry_updated e p he]
          have hE := hET e (List.mem_cons_self e rest)
          cases hu : e.updated with
          | none => simp [textOf]
          | some t =>
            rw [hu] at hE
            exact fun hcon => hE (congrArg some hcon)
        · exact ih (fun e2 he2 => hET e2 (List.mem_cons_of_mem e he2)) hr p hp2

/-- C1: for every non-empty record list parsed from a well-formed feed in
which every record has a non-null `updated`, the driver's `max` step
returns the maximum over all records of the first 10 characters of
`updated` (a member of the list of truncations that no truncation strictly
exceeds), and the filter step returns exactly the records whose `updated`
starts with that date, in order.  The hypothesis
`e.updated ≠ some (some "")` records the ElementTree invariant that parsed
element text is never the empty string. -/
theorem latest_date_filter_correct (entries : List AtomEntry) (parsed : List Paper)
    (hET : ∀ e ∈ entries, e.updated ≠ some (some ""))
    (hp : parse_arxiv_feed (XmlDoc.wellFormed entries) = Except.ok parsed)
    (hne : parsed ≠ [])
    (hnn : ∀ p ∈ parsed, p.updated ≠ none) :
    ∃ D, pyMax (all_dates parsed) = Except.ok D ∧
      D ∈ parsed.map (fun p => (p.updated.getD "").take 10) ∧
      (∀ x ∈ parsed.map (fun p => (p.updated.getD "").take 10), strLt D x = false) ∧
      filterLatest D parsed =
        Except.ok (parsed.filter fun p => D.data.isPrefixOf (p.updated.getD "").data) := by
  have hnemp : ∀ p ∈ parsed, p.updated ≠ some "" := parseEntries_updated_inv hET hp
  have htruthy : ∀ p ∈ parsed, truthyStr p.updated = true := by
    intro p hmem
    cases hu : p.updated with
    | none => exact absurd hu (hnn p hmem)
    | some u =>
      have hune : u ≠ "" := fun he => hnemp p hmem (by rw [hu, he])
      simp [truthyStr, hune]
  have hsome : ∃ p ∈ parsed, truthyStr p.updated = true := by
    obtain ⟨p, hmem⟩ := List.exists_mem_of_ne_nil parsed hne
    exact ⟨p, hmem, htruthy p hmem⟩
  obtain ⟨D, hmax, hmem, hnot⟩ := pyMax_ok _ (all_dates_ne_nil hsome)
  refine ⟨D, hmax, ?_, ?_, filterLatest_ok hnn⟩
  · obtain ⟨p, hp2, ht, heq⟩ := mem_all_dates.mp hmem
    exact List.mem_map.mpr ⟨p, hp2, heq⟩
  · intro x hx
    obtain ⟨p, hp2, heq⟩ := List.mem_map.mp hx
    exact hnot x (mem_all_dates.mpr ⟨p, hp2, htruthy p hp2, heq⟩)

/-- Witness for C1 at the spec's example timestamps: the current date is
2024-01-02 and the filtered set is exactly the two records with that
prefix. -/
theorem latest_date_filter_correct_witness :
    parse_arxiv_feed (XmlDoc.wellFormed [entryA, updatedOnlyEntry, entryC]) =
      Except.ok [paperA, paperB, paperC] ∧
    pyMax (all_dates [paperA, paperB, paperC]) = Except.ok "2024-01-02" ∧
    filterLatest "2024-01-02" [paperA, paperB, paperC] = Except.ok [paperB, paperC] ∧
    (∃ D, pyMax (all_dates [paperA, paperB, paperC]) = Except.ok D ∧
      D ∈ [paperA, paperB, paperC].map (fun p => (p.updated.getD "").take 10) ∧
      (∀ x ∈ [paperA, paperB, paperC].map (fun p => (p.updated.getD "").take 10),
        strLt D x = false) ∧
      filterLatest D [paperA, paperB, paperC] =
        Except.ok ([paperA, paperB, paperC].filter
          fun p => D.data.isPrefixOf (p.updated.getD "").data)) :=
  ⟨by decide, by decide, by decide,
   latest_date_filter_correct [entryA, updatedOnlyEntry, entryC] [paperA, paperB, paperC]
     (by decide) (by decide) (by decide) (by decide)⟩

/-- C2 counterexample: with the dated file already present, the subject's
processing returns the directory unchanged and writes no `today.jsonl`
mirror — the `continue` skips the mirror write as well. -/
theorem mirror_skip_counterexample :
    driver_subject "data" "cs.SE" [paperB] exFs =
      Except.ok (exFs, [latestMsg "cs.SE" "2024-01-02"]) ∧
    exFs.lookup (todayName "data") = none := by
  decide

/-- C2 (amended): the mirror file is rewritten with the subject's filtered
set exactly when the dated write occurs, that is when the dated file does
not already exist; when it exists, both writes are skipped. -/
theorem mirror_refresh_on_write (dataDir subject : String) (parsed : List Paper) (fs : FS)
    (D : String) (F : List Paper)
    (hne : parsed ≠ [])
    (hmax : pyMax (all_dates parsed) = Except.ok D)
    (hfil : filterLatest D parsed = Except.ok F)
    (hex : fileExists fs (datedName dataDir subject D) = false) :
    driver_subject dataDir subject parsed fs =
      Except.ok (writeFile (writeFile fs (datedName dataDir subject D) (jsonlContent F))
                   (todayName dataDir) (jsonlContent F),
                 [latestMsg subject D, savedMsg F.length (datedName dataDir subject D),
                  savedMsg F.length (todayName dataDir)]) ∧
    (writeFile (writeFile fs (datedName dataDir subject D) (jsonlContent F))
        (todayName dataDir) (jsonlContent F)).lookup (todayName dataDir) =
      some (jsonlContent F) :=
  ⟨driver_subject_write hne hmax hfil hex, lookup_writeFile _ _ _⟩

/-- Witness for C2 (amended) on an empty data directory. -/
theorem mirror_refresh_on_write_witness :
    fileExists [] (datedName "data" "cs.SE" "2024-01-02") = false ∧
    (driver_subject "data" "cs.SE" [paperB] [] =
      Except.ok (writeFile (writeFile [] (datedName "data" "cs.SE" "2024-01-02")
                    (jsonlContent [paperB]))
                   (todayName "data") (jsonlContent [paperB]),
                 [latestMsg "cs.SE" "2024-01-02",
                  savedMsg (List.length [paperB]) (datedName "data" "cs.SE" "2024-01-02"),
                  savedMsg (List.length [paperB]) (todayName "data")]) ∧
    (writeFile (writeFile [] (datedName "data" "cs.SE" "2024-01-02") (jsonlContent [paperB]))
        (todayName "data") (jsonlContent [paperB])).lookup (todayName "data") =
      some (jsonlContent [paperB])) :=
  ⟨by decide,
   mirror_refresh_on_write "data" "cs.SE" [paperB] [] "2024-01-02" [paperB]
     (by decide) (by decide) (by decide) (by decide)⟩

/-- C3: when the per-subject dated file already exists, the subject's step
skips the write entirely — the run does not raise, the directory (and so
that file's content) is passed unchanged to the remaining subjects, and
only the latest-date console line is emitted. -/
theorem noclobber_skip (dataDir subject : String) (doc : XmlDoc) (fs : FS)
    (rest : List (String × XmlDoc)) (parsed F : List Paper) (D : String)
    (hp : parse_arxiv_feed doc = Except.ok parsed) (hne : parsed ≠ [])
    (hmax : pyMax (all_dates parsed) = Except.ok D)
    (hfil : filterLatest D parsed = Except.ok F)
    (hex : fileExists fs (datedName dataDir subject D) = true) :
    main_loop dataDir fs ((subject, doc) :: rest) =
      (main_loop dataDir fs rest).map fun r2 => (r2.1, latestMsg subject D :: r2.2) :=
  main_loop_cons dataDir subject doc fs rest hp (driver_subject_skip hne hmax hfil hex)

/-- Witness for C3 on a directory that already holds the dated file. -/
theorem noclobber_skip_witness :
    fileExists exFs (datedName "data" "cs.SE" "2024-01-02") = true ∧
    main_loop "data" exFs [("cs.SE", XmlDoc.wellFormed [updatedOnlyEntry])] =
      (main_loop "data" exFs []).map fun r2 => (r2.1, latestMsg "cs.SE" "2024-01-02" :: r2.2) :=
  ⟨by decide,
   noclobber_skip "data" "cs.SE" (XmlDoc.wellFormed [updatedOnlyEntry]) exFs []
     [paperB] [paperB] "2024-01-02" (by decide) (by decide) (by decide) (by decide) (by decide)⟩

/-- C4 (amended): for every well-formed feed whose entries have no
present-but-textless title or summary element, the parser returns exactly
one record per entry, paired in document order, with absent optional fields
null and title and summary whitespace-trimmed. -/
theorem parse_feed_record_per_entry (entries : List AtomEntry)
    (h : ∀ e ∈ entries, e.title ≠ some none ∧ e.summary ≠ some none) :
    ∃ rs, parse_arxiv_feed (XmlDoc.wellFormed entries) = Except.ok rs ∧
      List.Forall₂ entryMatches entries rs :=
  parseEntries_forall2 entries h

/-- Witness for C4 on a two-entry feed: one full entry, one entry with every
element absent. -/
theorem parse_feed_record_per_entry_witness :
    parse_arxiv_feed (XmlDoc.wellFormed [richEntry, emptyEntry]) =
      Except.ok [richPaper, mkPaper none] ∧
    (∃ rs, parse_arxiv_feed (XmlDoc.wellFormed [richEntry, emptyEntry]) = Except.ok rs ∧
      List.Forall₂ entryMatches [richEntry, emptyEntry] rs) :=
  ⟨by decide, parse_feed_record_per_entry [richEntry, emptyEntry] (by decide)⟩

/-- C4 counterexample: a well-formed one-entry feed whose title element is
present but empty makes the parser raise instead of returning one record. -/
theorem parse_feed_empty_title_counterexample :
    parse_arxiv_feed (XmlDoc.wellFormed [emptyTitleEntry]) =
      Except.error PyError.attributeError ∧
    XmlDoc.wellFormed [emptyTitleEntry] ≠ XmlDoc.malformed := by
  decide

/-- C5: for every entry the parser accepts, the record's `pdf_url` is the
href of the last link in document order whose type attribute equals
`application/pdf`, and null when no link has that type. -/
theorem pdf_url_last_wins (e : AtomEntry) (r : Paper)
    (h : parse_entry e = Except.ok r) : r.pdf_url = lastPdfHref e.links := by
  by_cases ht : e.title = some none
  · rw [parse_entry_title_err ht] at h; cases h
  · by_cases hs : e.summary = some none
    · rw [parse_entry_summary_err ht hs] at h; cases h
    · rw [parse_entry_ok ht hs] at h
      injection h with h
      rw [← h]
      exact pdfUrl_eq_lastPdfHref e.links

/-- Witness for C5 on an entry with two `application/pdf` links with hrefs
`A` then `B`: the parsed PDF URL is `B`. -/
theorem pdf_url_last_wins_witness :
    parse_entry twoPdfEntry = Except.ok twoPdfPaper ∧
    twoPdfPaper.pdf_url = some "B" ∧
    twoPdfPaper.pdf_url = lastPdfHref twoPdfEntry.links :=
  ⟨by decide, by decide, pdf_url_last_wins twoPdfEntry twoPdfPaper (by decide)⟩

/-- C6 counterexample: an entry with one author element that has no name
child parses to a record with an empty author list — the element is
dropped, so the list does not contain one name per author element. -/
theorem authors_dropped_counterexample :
    parse_entry namelessAuthorEntry = Except.ok (mkPaper none) ∧
    namelessAuthorEntry.authors.length = 1 ∧
    (mkPaper none).authors.length = 0 := by
  decide

/-- C6 (amended): for every entry the parser accepts, the record's author
list contains, in document order, one entry (the name element's text,
possibly null) per author element that has a name child; author elements
without a name child are skipped. -/
theorem authors_order_with_name (e : AtomEntry) (r : Paper)
    (h : parse_entry e = Except.ok r) :
    r.authors = (e.authors.filter fun a => a.name.isSome).map fun a => a.name.getD none := by
  by_cases ht : e.title = some none
  · rw [parse_entry_title_err ht] at h; cases h
  · by_cases hs : e.summary = some none
    · rw [parse_entry_summary_err ht hs] at h; cases h
    · rw [parse_entry_ok ht hs] at h
      injection h with h
      rw [← h]
      exact authorNames_eq_filter_map e.authors

/-- Witness for C6 (amended) on an entry with two named authors. -/
theorem authors_order_with_name_witness :
    parse_entry richEntry = Except.ok richPaper ∧
    richPaper.authors = [some "Alice", some "Bob"] ∧
    richPaper.authors =
      (richEntry.authors.filter fun a => a.name.isSome).map fun a => a.name.getD none :=
  ⟨by decide, by decide, authors_order_with_name richEntry richPaper (by decide)⟩

/-- C7: a non-well-formed input fails the whole parse with the structural
parse error; no record list, partial or empty, is returned. -/
theorem malformed_xml_error :
    parse_arxiv_feed XmlDoc.malformed = Except.error PyError.xmlParseError := rfl

/-- C8: a subject whose parse yields zero records reports the no-papers
console line, leaves the directory unchanged for the remaining subjects,
raises nothing, and processing continues with the rest of the list. -/
theorem empty_parse_continue (dataDir subject : String) (doc : XmlDoc) (fs : FS)
    (rest : List (String × XmlDoc)) (h : parse_arxiv_feed doc = Except.ok []) :
    main_loop dataDir fs ((subject, doc) :: rest) =
      (main_loop dataDir fs rest).map fun r2 => (r2.1, noPapersMsg subject :: r2.2) :=
  main_loop_cons dataDir subject doc fs rest h rfl

/-- Witness for C8 on a feed with no entries. -/
theorem empty_parse_continue_witness :
    parse_arxiv_feed (XmlDoc.wellFormed []) = Except.ok [] ∧
    main_loop "data" [] [("cs.SE", XmlDoc.wellFormed [])] =
      (main_loop "data" ([] : FS) []).map fun r2 => (r2.1, noPapersMsg "cs.SE" :: r2.2) :=
  ⟨rfl, empty_parse_continue "data" "cs.SE" (XmlDoc.wellFormed []) [] [] rfl⟩

/-- C9: for every non-empty record list parsed from a well-formed feed and
containing at least one record with null `updated`, the driver's
date-determination-and-filter step raises an error rather than skipping or
filtering out those records: if all records have null `updated` the maximum
is taken over an empty list (`ValueError`), and otherwise the prefix filter
calls `startswith` on `None` (`AttributeError`).  The hypothesis
`e.updated ≠ some (some "")` records the ElementTree invariant that parsed
element text is never the empty string, so a non-null `updated` is
non-empty and hence truthy. -/
theorem null_updated_raises (dataDir subject : String) (entries : List AtomEntry)
    (parsed : List Paper) (fs : FS)
    (hET : ∀ e ∈ entries, e.updated ≠ some (some ""))
    (hp : parse_arxiv_feed (XmlDoc.wellFormed entries) = Except.ok parsed)
    (hne : parsed ≠ [])
    (hnull : ∃ p ∈ parsed, p.updated = none) :
    (∃ err, driver_subject dataDir subject parsed fs = Except.error err) ∧
    ((∀ p ∈ parsed, p.updated = none) →
      driver_subject dataDir subject parsed fs = Except.error PyError.valueError) ∧
    ((∃ p ∈ parsed, p.updated ≠ none) →
      driver_subject dataDir subject parsed fs = Except.error PyError.attributeError) := by
  have hnemp : ∀ p ∈ parsed, p.updated ≠ some "" := parseEntries_updated_inv hET hp
  have hval : (∀ p ∈ parsed, p.updated = none) →
      driver_subject dataDir subject parsed fs = Except.error PyError.valueError := by
    intro h
    have hfalsy : ∀ p ∈ parsed, truthyStr p.updated = false := fun p hp2 => by
      rw [h p hp2]; rfl
    simp only [driver_subject, list_isEmpty_false hne, Bool.false_eq_true, if_false,
      all_dates_eq_nil hfalsy]
    rfl
  have hatt : (∃ p ∈ parsed, p.updated ≠ none) →
      driver_subject dataDir subject parsed fs = Except.error PyError.attributeError := by
    rintro ⟨p, hp2, hpn⟩
    have htruthy : truthyStr p.updated = true := by
      cases hu : p.updated with
      | none => exact absurd hu hpn
      | some u =>
        have hune : u ≠ "" := fun he => hnemp p hp2 (by rw [hu, he])
        simp [truthyStr, hune]
    obtain ⟨D, hmax, -, -⟩ := pyMax_ok _ (all_dates_ne_nil ⟨p, hp2, htruthy⟩)
    simp only [driver_subject, list_isEmpty_false hne, Bool.false_eq_true, if_false,
      hmax, bind_ok, filterLatest_err hnull, bind_err]
  refine ⟨?_, hval, hatt⟩
  by_cases hc : ∀ p ∈ parsed, p.updated = none
  · exact ⟨PyError.valueError, hval hc⟩
  · have hex : ∃ p ∈ parsed, p.updated ≠ none := by
      push_neg at hc
      exact hc
    exact ⟨PyError.attributeError, hatt hex⟩

/-- Witness for C9 on a parse of two entries, one with no `updated` element
and one with a timestamp: the filter hits the null record and raises
`AttributeError`. -/
theorem null_updated_raises_witness :
    parse_arxiv_feed (XmlDoc.wellFormed [emptyEntry, updatedOnlyEntry]) =
      Except.ok [mkPaper none, paperB] ∧
    (mkPaper none).updated = none ∧
    driver_subject "data" "cs.SE" [mkPaper none, paperB] [] =
      Except.error PyError.attributeError ∧
    ((∃ err, driver_subject "data" "cs.SE" [mkPaper none, paperB] [] = Except.error err) ∧
    ((∀ p ∈ [mkPaper none, paperB], p.updated = none) →
      driver_subject "data" "cs.SE" [mkPaper none, paperB] [] =
        Except.error PyError.valueError) ∧
    ((∃ p ∈ [mkPaper none, paperB], p.updated ≠ none) →
      driver_subject "data" "cs.SE" [mkPaper none, paperB] [] =
        Except.error PyError.attributeError)) :=
  ⟨by decide, rfl, by decide,
   null_updated_raises "data" "cs.SE" [emptyEntry, updatedOnlyEntry] [mkPaper none, paperB] []
     (by decide) (by decide) (by decide) (by decide)⟩

/-- C10: every well-formed feed containing an entry whose title or summary
element is present but textless makes the parser raise `AttributeError`
(`None.strip()`), instead of returning a record with a null field for that
entry. -/
theorem empty_text_strip_raises (entries : List AtomEntry)
    (h : ∃ e ∈ entries, e.title = some none ∨ e.summary = some none) :
    parse_arxiv_feed (XmlDoc.wellFormed entries) = Except.error PyError.attributeError :=
  parseEntries_err entries h

/-- Witness for C10 on a one-entry feed with an empty title element. -/
theorem empty_text_strip_raises_witness :
    emptyTitleEntry.title = some none ∧
    parse_arxiv_feed (XmlDoc.wellFormed [emptyTitleEntry]) =
      Except.error PyError.attributeError :=
  ⟨rfl, empty_text_strip_raises [emptyTitleEntry] (by decide)⟩
